import Mathlib

/-!
Verification of the realtime session core of a browser chat client
(`src/chat/chatpage.jsx`): message-stream reconciliation, the processed-event
dedup cache, the unread-counter router, and the call-signaling handlers.

The JavaScript is shallowly embedded: each handler becomes a pure Lean
function over an explicit state record.  JavaScript dynamic values are
modelled only as far as the embedded code inspects them:

* ids may arrive as strings or as objects carrying an `_id` field (`JsId`);
* absent / non-string fields are `Option`s, with `""` standing for the
  falsy empty string where the code only tests truthiness;
* the `Map`, `Set` and plain-object containers are insertion-ordered lists;
* WebRTC objects are records of exactly the fields the handlers read, and
  `addIceCandidate` calls are recorded as an ordered trace.
-/

namespace ChatApp

/-- A JavaScript value used as an id: `null`/`undefined`, a string, or an
object with an `_id` property (the only shapes `toId` distinguishes; objects
without a usable `_id` stringify to `"[object Object]"`, which `toId` maps to
`""`, so they are folded into `obj ""`). -/
inductive JsId where
  | null
  | str (s : String)
  | obj (id : String)
deriving DecidableEq, Repr

/-- `toId` from chatpage.jsx: falsy values give `""`; strings pass through;
objects yield `String(value._id)` when `_id` is truthy; the `toString`
fallback for plain objects produces `"[object Object]"`, which is rejected. -/
def toId : JsId → String
  | .null => ""
  | .str s => s
  | .obj id => if id = "" then "" else id

/-- `value || null` applied to a `JsId`: falsy values (`null`, `""`) become
`null`; objects are always truthy. -/
def jsIdOrNull : JsId → JsId
  | .null => .null
  | .str s => if s = "" then .null else .str s
  | .obj id => .obj id

/-- `buildDmNotificationKey` from chatpage.jsx. -/
def buildDmNotificationKey (userId : String) : String :=
  "dm:" ++ userId

/-- `buildRoomNotificationKey` from chatpage.jsx. -/
def buildRoomNotificationKey (roomId : String) : String :=
  "room:" ++ roomId

/-- A raw `{type, sdp}` session-description payload.  `type` is `none` when
the property is absent or not a string; likewise `sdp`. -/
structure RawSessionDescription where
  type : Option String
  sdp : Option String
deriving DecidableEq, Repr

/-- A validated session description as produced by
`normalizeSessionDescription`. -/
structure SessionDescription where
  type : String
  sdp : String
deriving DecidableEq, Repr

/-- `normalizeSessionDescription` from chatpage.jsx: the input must be an
object whose `type` is exactly `"offer"` or `"answer"` and whose `sdp` is a
non-empty string; otherwise `null`. -/
def normalizeSessionDescription : Option RawSessionDescription → Option SessionDescription
  | none => none
  | some description =>
    let type := if description.type = some "offer" ∨ description.type = some "answer"
      then description.type.getD "" else ""
    let sdp := description.sdp.getD ""
    if type = "" ∨ sdp = "" then none
    else some ⟨type, sdp⟩

/-- A raw ICE-candidate payload; `candidate` holds `String(x.candidate || "")`
before trimming. -/
structure RawIceCandidate where
  candidate : String
  sdpMid : Option String
  sdpMLineIndex : Option Int
  usernameFragment : Option String
deriving DecidableEq, Repr

/-- A validated ICE candidate as produced by `normalizeIceCandidatePayload`. -/
structure IceCandidate where
  candidate : String
  sdpMid : Option String
  sdpMLineIndex : Option Int
  usernameFragment : Option String
deriving DecidableEq, Repr

/-- JavaScript `String.prototype.trim()`: strip leading and trailing
whitespace (modelled over the character list). -/
def jsTrim (s : String) : String :=
  String.mk (((s.data.dropWhile Char.isWhitespace).reverse.dropWhile
    Char.isWhitespace).reverse)

/-- `normalizeIceCandidatePayload` from chatpage.jsx: drops falsy payloads and
payloads whose trimmed `candidate` string is empty; keeps the optional
`sdpMid` / `sdpMLineIndex` / `usernameFragment` fields when typed correctly. -/
def normalizeIceCandidatePayload : Option RawIceCandidate → Option IceCandidate
  | none => none
  | some c =>
    let candidateValue := jsTrim c.candidate
    if candidateValue = "" then none
    else some ⟨candidateValue, c.sdpMid, c.sdpMLineIndex, c.usernameFragment⟩

/-- A raw reaction entry `(user, emoji)`. -/
structure RawReaction where
  user : JsId
  emoji : String
deriving DecidableEq, Repr

/-- Result of `normalizeReaction`: the user id coerced through `toId`. -/
structure NormalizedReaction where
  user : String
  emoji : String
deriving DecidableEq, Repr

/-- `normalizeReaction` from chatpage.jsx (`emoji || ""` is the identity on
the stored strings, with `""` for a falsy emoji). -/
def normalizeReaction (r : RawReaction) : NormalizedReaction :=
  ⟨toId r.user, r.emoji⟩

/-- `areReactionsEqual` from chatpage.jsx: a length check followed by a
positional comparison of the normalized `(user, emoji)` pairs, written here
as the equivalent structural recursion. -/
def areReactionsEqual : List RawReaction → List RawReaction → Bool
  | [], [] => true
  | p :: ps, n :: ns =>
    let left := normalizeReaction p
    let right := normalizeReaction n
    (left.user = right.user && left.emoji = right.emoji) && areReactionsEqual ps ns
  | _, _ => false

/-- The object form of a raw `replyTo` value: its `_id` property (coerced to
a string, `""` when absent or falsy), plus the three fields
`normalizeReplyPreview` extracts. -/
structure RawReplyObj where
  idField : String
  senderUserId : JsId
  messageContent : String
  createdAt : String
deriving DecidableEq, Repr

/-- A raw `replyTo` value: `null`, a non-object (e.g. a bare id string), or
an object. -/
inductive RawReplyVal where
  | null
  | nonObject (s : String)
  | obj (r : RawReplyObj)
deriving DecidableEq, Repr

/-- The normalized reply preview stored on messages in the list. -/
structure ReplyPreview where
  rid : String
  senderUserId : JsId
  messageContent : String
  createdAt : String
deriving DecidableEq, Repr

/-- `normalizeReplyPreview` from chatpage.jsx on a raw `replyTo` value:
non-objects give `null`; for objects, `_id` comes from `toId` on the object
(its `_id` property when truthy, else `""`), the sender is kept via
`|| null`, and the body / timestamp strings pass through. -/
def normalizeReplyPreview : RawReplyVal → Option ReplyPreview
  | .null => none
  | .nonObject _ => none
  | .obj r =>
    some { rid := if r.idField = "" then "" else r.idField
           senderUserId := jsIdOrNull r.senderUserId
           messageContent := r.messageContent
           createdAt := r.createdAt }

/-- `normalizeReplyPreview` applied to an already-normalized preview (the
shape stored in the message list): the preview is an object, `toId` reads its
`rid` (`""` when falsy), `|| null` is applied to the sender again, and the
`String()` / `|| ""` coercions are identities on the stored strings. -/
def renormalizeReplyPreview : Option ReplyPreview → Option ReplyPreview
  | none => none
  | some p =>
    some { rid := if p.rid = "" then "" else p.rid
           senderUserId := jsIdOrNull p.senderUserId
           messageContent := p.messageContent
           createdAt := p.createdAt }

/-- A raw message as delivered by the REST poll or the push channel. `mid`
holds `String(message._id)` with `""` for an absent or falsy id. -/
structure RawMessage where
  mid : String
  senderUserId : JsId
  receiverUserIdOrRoomId : JsId
  messageContent : String
  messageType : String
  readStatus : Bool
  createdAt : String
  updatedAt : String
  reactions : Option (List RawReaction)
  replyTo : RawReplyVal
deriving DecidableEq, Repr

/-- A message as stored in the in-memory list: reactions defaulted to an
array and `replyTo` reduced to a preview (the shape produced by
`reconcileMessages` and `appendRealtimeMessage`). -/
structure NormMessage where
  mid : String
  senderUserId : JsId
  receiverUserIdOrRoomId : JsId
  messageContent : String
  messageType : String
  readStatus : Bool
  createdAt : String
  updatedAt : String
  reactions : List RawReaction
  replyTo : Option ReplyPreview
deriving DecidableEq, Repr

/-- The normalization both `reconcileMessages` and `appendRealtimeMessage`
apply to an incoming message: spread the raw fields, default `reactions` to
`[]` when not an array, and normalize `replyTo` to a preview. -/
def normalizeIncomingMessage (message : RawMessage) : NormMessage :=
  { mid := message.mid
    senderUserId := message.senderUserId
    receiverUserIdOrRoomId := message.receiverUserIdOrRoomId
    messageContent := message.messageContent
    messageType := message.messageType
    readStatus := message.readStatus
    createdAt := message.createdAt
    updatedAt := message.updatedAt
    reactions := message.reactions.getD []
    replyTo := normalizeReplyPreview message.replyTo }

/-- `shouldReuseMessage` from chatpage.jsx, at the type at which
`reconcileMessages` invokes it (both arguments carry list-shape messages, so
`normalizeReplyPreview` acts as `renormalizeReplyPreview`).  `none` models a
missing `previousMessage`. -/
def shouldReuseMessage : Option NormMessage → NormMessage → Bool
  | none, _ => false
  | some previousMessage, nextMessage =>
    let previousReply := renormalizeReplyPreview previousMessage.replyTo
    let nextReply := renormalizeReplyPreview nextMessage.replyTo
    let isReplyEqual :=
      match previousReply, nextReply with
      | none, none => true
      | some p, some n =>
        p.rid = n.rid && p.messageContent = n.messageContent &&
          toId p.senderUserId = toId n.senderUserId && p.createdAt = n.createdAt
      | _, _ => false
    (previousMessage.mid = nextMessage.mid &&
      previousMessage.messageContent = nextMessage.messageContent &&
      previousMessage.messageType = nextMessage.messageType &&
      previousMessage.readStatus = nextMessage.readStatus &&
      previousMessage.createdAt = nextMessage.createdAt &&
      previousMessage.updatedAt = nextMessage.updatedAt &&
      toId previousMessage.senderUserId = toId nextMessage.senderUserId &&
      areReactionsEqual previousMessage.reactions nextMessage.reactions) &&
      isReplyEqual

/-- Lookup in `new Map(previousMessages.map(m => [String(m._id), m]))`: when
two list entries share an id, the later entry overwrites the earlier one. -/
def findByIdLastWins (previous : List NormMessage) (id : String) : Option NormMessage :=
  previous.reverse.find? (fun m => m.mid = id)

/-- `reconcileMessages` from chatpage.jsx: map each incoming message to its
normalization, reusing the field-equal pre-existing entry when
`shouldReuseMessage` accepts it. -/
def reconcileMessages (previousMessages : List NormMessage)
    (incomingMessages : List RawMessage) : List NormMessage :=
  incomingMessages.map (fun message =>
    let normalizedMessage := normalizeIncomingMessage message
    match findByIdLastWins previousMessages normalizedMessage.mid with
    | some existing =>
      if shouldReuseMessage (some existing) normalizedMessage then existing
      else normalizedMessage
    | none => normalizedMessage)

/-- `appendRealtimeMessage` from chatpage.jsx: drop messages without an id,
no-op when the id is already present, otherwise normalize and append. -/
def appendRealtimeMessage (previous : List NormMessage) (message : RawMessage) :
    List NormMessage :=
  if message.mid = "" then previous
  else if previous.any (fun existing => existing.mid = message.mid) then previous
  else previous ++ [normalizeIncomingMessage message]

/-! ### Conversation notification router and processed-event cache -/

/-- `getMessageNotificationKey` from chatpage.jsx: classify an inbound
message by `(sender id, target id, current user id)`; `""` models the
discard cases. -/
def getMessageNotificationKey (senderUserId receiverUserIdOrRoomId : JsId)
    (selfUserId : String) : String :=
  let senderId := toId senderUserId
  let targetId := toId receiverUserIdOrRoomId
  if senderId = "" ∨ targetId = "" ∨ selfUserId = "" ∨ senderId = selfUserId then ""
  else if targetId = selfUserId then buildDmNotificationKey senderId
  else buildRoomNotificationKey targetId

/-- Read `previous[key]` from the unread-counter object, modelled as an
insertion-ordered association list. -/
def unreadGet (unread : List (String × Nat)) (key : String) : Option Nat :=
  (unread.find? (fun p => p.1 = key)).map (fun p => p.2)

/-- `{...previous, [key]: (previous[key] || 0) + 1}`: an existing key keeps
its position and is bumped (`v || 0` is the identity on `Nat` before `+ 1`);
a new key is appended with count 1. -/
def unreadIncrement (unread : List (String × Nat)) (key : String) :
    List (String × Nat) :=
  if unread.any (fun p => p.1 = key) then
    unread.map (fun p => if p.1 = key then (p.1, p.2 + 1) else p)
  else unread ++ [(key, 1)]

/-- `clearUnreadForKey` from chatpage.jsx: no-op on a falsy key, and on
`!previous[notificationKey]` (entry absent, or present with count 0);
otherwise the entry is deleted from the object. -/
def clearUnreadForKey (unread : List (String × Nat)) (notificationKey : String) :
    List (String × Nat) :=
  if notificationKey = "" then unread
  else
    match unreadGet unread notificationKey with
    | none => unread
    | some v =>
      if v = 0 then unread
      else unread.filter (fun p => p.1 ≠ notificationKey)

/-- The unread-counter deletion inside `removeRoomFromUi` (room events):
no-op on a falsy room id, then the same absent-or-falsy guard and deletion
as `clearUnreadForKey`, keyed on the room interpretation. -/
def removeRoomUnread (unread : List (String × Nat)) (roomId : String) :
    List (String × Nat) :=
  if roomId = "" then unread
  else clearUnreadForKey unread (buildRoomNotificationKey roomId)

/-- The session-core state the push handlers mutate: the processed-event
cache (`Set`, insertion order kept as a list), the unread-counter object,
the key of the conversation open in the UI, the message list, and the
reply-composer state. -/
structure ChatState where
  selfUserId : String
  processedIds : List String
  unreadCounts : List (String × Nat)
  activeNotificationKey : String
  messages : List NormMessage
  replyToMessage : Option ReplyPreview
deriving DecidableEq, Repr

/-- The state on login: empty cache, empty counters, no open conversation. -/
def initialChatState (selfUserId : String) : ChatState :=
  { selfUserId := selfUserId
    processedIds := []
    unreadCounts := []
    activeNotificationKey := ""
    messages := []
    replyToMessage := none }

/-- `onNewMessage` from chatpage.jsx.  The payload unwrap
(`payload?.data || payload?.message || payload`) is assumed done; `mid = ""`
models a missing id.  Inserting into the `Set` appends at the tail; when the
size exceeds 500 the first-inserted entry (`values().next().value`, the list
head) is deleted.  The alert-tone and system-notification side effects carry
no session-core state and are omitted. -/
def onNewMessage (state : ChatState) (payload : RawMessage) (_isPageFocused : Bool) :
    ChatState :=
  let messageId := payload.mid
  if messageId = "" then state
  else if state.processedIds.contains messageId then state
  else
    let added := state.processedIds ++ [messageId]
    let processed := if 500 < added.length then added.tail else added
    let notificationKey :=
      getMessageNotificationKey payload.senderUserId payload.receiverUserIdOrRoomId
        state.selfUserId
    if notificationKey = "" then { state with processedIds := processed }
    else if notificationKey = state.activeNotificationKey then
      { state with processedIds := processed
                   messages := appendRealtimeMessage state.messages payload }
    else
      { state with processedIds := processed
                   unreadCounts := unreadIncrement state.unreadCounts notificationKey }

/-- The `setMessages` update of `onReactionUpdated`: replace the reaction
list of the message matching the id (the `changed` flag only preserves the
object reference and does not alter the value).  A falsy `messageId` or a
non-array reaction payload is rejected before this update runs. -/
def onReactionUpdated (messages : List NormMessage) (messageId : String)
    (reactions : List RawReaction) : List NormMessage :=
  if messageId = "" then messages
  else messages.map (fun message =>
    if message.mid = messageId then { message with reactions := reactions }
    else message)

/-- `String(message.replyTo)`-level id of a stored reply preview, as
`toId(message.replyTo)` computes it in `onMessageDeleted`: `null` gives `""`;
a preview object gives its `_id` when truthy. -/
def replyToId : Option ReplyPreview → String
  | none => ""
  | some p => if p.rid = "" then "" else p.rid

/-- The `setMessages` update of `onMessageDeleted`: drop the deleted message
and null every reply reference pointing at it. -/
def onMessageDeleted (messages : List NormMessage) (deletedMessageId : String) :
    List NormMessage :=
  if deletedMessageId = "" then messages
  else
    (messages.filter (fun message => message.mid ≠ deletedMessageId)).map
      (fun message =>
        let replyId := replyToId message.replyTo
        if replyId ≠ "" ∧ replyId = deletedMessageId then
          { message with replyTo := none }
        else message)

/-- `onConversationCleared` from chatpage.jsx: a falsy target is ignored;
unread entries for both the direct-message and the room interpretation of
the target are cleared; when the target matches the open conversation under
either key, the message list is emptied and the reply composer dismissed. -/
def onConversationCleared (state : ChatState) (receiverUserIdOrRoomId : String) :
    ChatState :=
  if receiverUserIdOrRoomId = "" then state
  else
    let dmNotificationKey := buildDmNotificationKey receiverUserIdOrRoomId
    let roomNotificationKey := buildRoomNotificationKey receiverUserIdOrRoomId
    let cleared :=
      clearUnreadForKey (clearUnreadForKey state.unreadCounts dmNotificationKey)
        roomNotificationKey
    let isActiveConversation :=
      state.activeNotificationKey = dmNotificationKey ∨
        state.activeNotificationKey = roomNotificationKey
    if isActiveConversation then
      { state with unreadCounts := cleared, messages := [], replyToMessage := none }
    else { state with unreadCounts := cleared }

/-- The events that drive the session-core state: the push handlers, the
effect that runs when the active conversation changes (store the new key and
`clearUnreadForKey` it), the poll merge, and deselecting every conversation
(which empties the list).  Room removal is modelled by its unread-counter
effect; the roster updates it also performs live outside this state. -/
inductive ChatEvent where
  | newMessage (payload : RawMessage) (isPageFocused : Bool)
  | reactionUpdated (messageId : String) (reactions : List RawReaction)
  | messageDeleted (messageId : String)
  | conversationCleared (receiverUserIdOrRoomId : String)
  | roomRemoved (roomId : String)
  | activateConversation (key : String)
  | fetchMerge (snapshot : List RawMessage)
  | deselectAll
deriving DecidableEq, Repr

/-- One step of the session core: dispatch an event to its handler. -/
def chatStep (state : ChatState) (event : ChatEvent) : ChatState :=
  match event with
  | .newMessage payload isPageFocused => onNewMessage state payload isPageFocused
  | .reactionUpdated messageId reactions =>
    { state with messages := onReactionUpdated state.messages messageId reactions }
  | .messageDeleted messageId =>
    if messageId = "" then state
    else
      { state with
          messages := onMessageDeleted state.messages messageId
          replyToMessage :=
            match state.replyToMessage with
            | some p => if p.rid = messageId then none else some p
            | none => none }
  | .conversationCleared target => onConversationCleared state target
  | .roomRemoved roomId =>
    { state with unreadCounts := removeRoomUnread state.unreadCounts roomId }
  | .activateConversation key =>
    { state with activeNotificationKey := key
                 unreadCounts := clearUnreadForKey state.unreadCounts key }
  | .fetchMerge snapshot =>
    { state with messages := reconcileMessages state.messages snapshot }
  | .deselectAll =>
    { state with activeNotificationKey := "", messages := [] }

/-! ### Call signaling -/

/-- `normalizeCallType` from chatpage.jsx. -/
def normalizeCallType (callType : String) : String :=
  if callType = "video" then "video" else "audio"

/-- `String(peerUserId).slice(-4)`: the last four characters. -/
def idSuffix (s : String) : String :=
  String.mk (s.data.reverse.take 4).reverse

/-- `resolvePeerName` from chatpage.jsx.  The roster (`usersRef`) is carried
as `(String(user._id), getUserDisplayName(user))` pairs; `find` returns the
first match.  A falsy fallback name is modelled by `""`. -/
def resolvePeerName (users : List (String × String)) (peerUserId fallbackName : String) :
    String :=
  if fallbackName ≠ "" then fallbackName
  else
    match users.find? (fun user => user.1 = peerUserId) with
    | some user => user.2
    | none =>
      if peerUserId ≠ "" then "User " ++ idSuffix peerUserId
      else "Unknown"

/-- The React `callState` record (`INITIAL_CALL_STATE` shape). -/
structure CallUiState where
  status : String
  callType : String
  peerUserId : String
  peerName : String
  callId : String
  error : String
deriving DecidableEq, Repr

/-- `INITIAL_CALL_STATE` from chatpage.jsx. -/
def INITIAL_CALL_STATE : CallUiState :=
  { status := "idle", callType := "audio", peerUserId := "", peerName := ""
    callId := "", error := "" }

/-- The record stored in `pendingIncomingCallRef` by `onCallOffer`. -/
structure PendingIncomingCall where
  fromUserId : String
  callType : String
  callId : String
  offer : SessionDescription
  peerName : String
deriving DecidableEq, Repr

/-- The `RTCPeerConnection` as the handlers observe it: whether a remote
description has been applied, and the ordered trace of `addIceCandidate`
calls issued against it (a failing call is logged and skipped by the code,
so the trace records the attempts in order). -/
structure PeerConnection where
  remoteDescription : Option SessionDescription
  appliedCandidates : List IceCandidate
deriving DecidableEq, Repr

/-- The mutable call refs (`pendingIncomingCallRef`, `queuedIceCandidatesRef`,
`activeCallPeerIdRef`, `activeCallIdRef`, `activeCallTypeRef`,
`peerConnectionRef`). -/
structure CallRefs where
  pendingIncomingCall : Option PendingIncomingCall
  queuedIceCandidates : List IceCandidate
  activeCallPeerId : String
  activeCallId : String
  activeCallType : String
  peerConnection : Option PeerConnection
deriving DecidableEq, Repr

/-- Outbound socket emissions relevant to the inbound call handlers (the
`call:end` emit; `callId: incomingCallId` vs `callId: ... || null` is kept
as an `Option`). -/
inductive OutboundEvent where
  | callEnd (toUserId : String) (callId : Option String) (reason : String)
deriving DecidableEq, Repr

/-- The call-side client state: refs, the React `callState`, and the ordered
log of events emitted on the socket. -/
structure CallClientState where
  refs : CallRefs
  callState : CallUiState
  emitted : List OutboundEvent
deriving DecidableEq, Repr

/-- An inbound `call:offer` payload.  `fromUserId` and `callId` hold the
string coercions with `""` for absent/falsy values; `offer` is the raw
description object (or `none` when absent/non-object). -/
structure CallOfferPayload where
  fromUserId : String
  callType : String
  callId : String
  offer : Option RawSessionDescription
  fromUserName : String
deriving DecidableEq, Repr

/-- `onCallOffer` from chatpage.jsx.  `users` carries the roster for
`resolvePeerName`; `generatedCallId` stands for the clock/PRNG-dependent
`buildCallId(fromUserId)` used when the payload carries no call id.  A
payload without a sender id or with an offer `normalizeSessionDescription`
rejects is dropped.  When a call is already pending or active (pending
incoming offer, active peer id, or live connection), a `call:end` with
reason `"busy"` is emitted and nothing else changes; otherwise the offer is
stored as pending, the refs are claimed, and the UI state moves to
`incoming`. -/
def onCallOffer (users : List (String × String)) (generatedCallId : String)
    (s : CallClientState) (payload : CallOfferPayload) : CallClientState :=
  let fromUserId := payload.fromUserId
  let normalizedOffer := normalizeSessionDescription payload.offer
  match normalizedOffer with
  | none => s
  | some offer =>
    if fromUserId = "" then s
    else
      let incomingCallType := normalizeCallType payload.callType
      let incomingCallId := if payload.callId = "" then generatedCallId else payload.callId
      let peerName := resolvePeerName users fromUserId payload.fromUserName
      let hasActiveCall :=
        s.refs.pendingIncomingCall.isSome ∨ s.refs.activeCallPeerId ≠ "" ∨
          s.refs.peerConnection.isSome
      if hasActiveCall then
        { s with emitted :=
            s.emitted ++ [.callEnd fromUserId (some incomingCallId) "busy"] }
      else
        { refs :=
            { pendingIncomingCall :=
                some { fromUserId := fromUserId, callType := incomingCallType
                       callId := incomingCallId, offer := offer, peerName := peerName }
              queuedIceCandidates := []
              activeCallPeerId := fromUserId
              activeCallId := incomingCallId
              activeCallType := incomingCallType
              peerConnection := s.refs.peerConnection }
          callState :=
            { status := "incoming", callType := incomingCallType
              peerUserId := fromUserId, peerName := peerName
              callId := incomingCallId, error := "" }
          emitted := s.emitted }

/-- `flushQueuedIceCandidates` from chatpage.jsx: a no-op without a
connection or before its remote description is set (the queue is then left
untouched); otherwise the queue is cleared and each queued candidate is
passed to `addIceCandidate` in order. -/
def flushQueuedIceCandidates (refs : CallRefs) : CallRefs :=
  match refs.peerConnection with
  | none => refs
  | some peerConnection =>
    match peerConnection.remoteDescription with
    | none => refs
    | some _ =>
      { refs with
          queuedIceCandidates := []
          peerConnection :=
            some { peerConnection with
                     appliedCandidates :=
                       peerConnection.appliedCandidates ++ refs.queuedIceCandidates } }

/-- An inbound `call:answer` payload. -/
structure CallAnswerPayload where
  callId : String
  answer : Option RawSessionDescription
deriving DecidableEq, Repr

/-- `onCallAnswer` from chatpage.jsx, on the success path of
`setRemoteDescription` (a WebRTC failure there triggers a teardown outside
these claims): ignore the event when both the payload and the local refs
carry a call id and they differ; ignore it when no connection exists or the
answer does not normalize; otherwise apply the answer as the remote
description, flush the queued candidates, and advance the UI status to
`"connecting"` unless it is `"incoming"`. -/
def onCallAnswer (s : CallClientState) (payload : CallAnswerPayload) : CallClientState :=
  if payload.callId ≠ "" ∧ s.refs.activeCallId ≠ "" ∧
      payload.callId ≠ s.refs.activeCallId then s
  else
    match s.refs.peerConnection, normalizeSessionDescription payload.answer with
    | some peerConnection, some normalizedAnswer =>
      let pcWithRemote :=
        { peerConnection with remoteDescription := some normalizedAnswer }
      let refsWithRemote := { s.refs with peerConnection := some pcWithRemote }
      let refsFlushed := flushQueuedIceCandidates refsWithRemote
      { s with
          refs := refsFlushed
          callState :=
            if s.callState.status = "incoming" then s.callState
            else { s.callState with status := "connecting" } }
    | _, _ => s

/-- An inbound `call:ice-candidate` payload. -/
structure CallIcePayload where
  callId : String
  candidate : Option RawIceCandidate
deriving DecidableEq, Repr

/-- `onCallIceCandidate` from chatpage.jsx, on the success path of candidate
construction and application: drop payloads whose candidate does not
normalize; ignore the event when both call ids are present and differ;
queue the candidate when no connection exists or its remote description is
unset; otherwise apply it immediately. -/
def onCallIceCandidate (refs : CallRefs) (payload : CallIcePayload) : CallRefs :=
  match normalizeIceCandidatePayload payload.candidate with
  | none => refs
  | some candidate =>
    if payload.callId ≠ "" ∧ refs.activeCallId ≠ "" ∧
        payload.callId ≠ refs.activeCallId then refs
    else
      match refs.peerConnection with
      | none =>
        { refs with queuedIceCandidates := refs.queuedIceCandidates ++ [candidate] }
      | some peerConnection =>
        match peerConnection.remoteDescription with
        | none =>
          { refs with queuedIceCandidates := refs.queuedIceCandidates ++ [candidate] }
        | some _ =>
          let applied :=
            { peerConnection with
                appliedCandidates := peerConnection.appliedCandidates ++ [candidate] }
          { refs with peerConnection := some applied }

/-! ### Spec-side definitions

Written from the specification text, to be compared with the embedded code. -/

/-- Spec §4.2: order-sensitive reaction-list equality — same length, and each
positional `(user, emoji)` pair equal (user ids compared as ids). -/
def specReactionsEqual (a b : List RawReaction) : Bool :=
  a.length == b.length &&
    (a.zip b).all (fun p => toId p.1.user == toId p.2.user && p.1.emoji == p.2.emoji)

/-- Spec §4.2: reply-preview equality — both absent, or both present with
identical id, body, sender id and timestamp. -/
def specReplyPreviewEqual : Option ReplyPreview → Option ReplyPreview → Bool
  | none, none => true
  | some a, some b =>
    a.rid == b.rid && a.messageContent == b.messageContent &&
      toId a.senderUserId == toId b.senderUserId && a.createdAt == b.createdAt
  | _, _ => false

/-- Spec §4.2: semantic equivalence of a stored message and a normalized
incoming message — identical id, body, type, read status, created/updated
timestamps, sender id, reply preview, and order-sensitive identical
reaction list. -/
def specFieldEqual (prev next : NormMessage) : Bool :=
  prev.mid == next.mid && prev.messageContent == next.messageContent &&
    prev.messageType == next.messageType && prev.readStatus == next.readStatus &&
    prev.createdAt == next.createdAt && prev.updatedAt == next.updatedAt &&
    toId prev.senderUserId == toId next.senderUserId &&
    specReactionsEqual prev.reactions next.reactions &&
    specReplyPreviewEqual prev.replyTo next.replyTo

/-- A session description is malformed in the claim's sense: absent or not
an object, type not exactly `"offer"` or `"answer"`, or sdp absent or not a
non-empty string. -/
def sessionDescriptionMalformed : Option RawSessionDescription → Bool
  | none => true
  | some d =>
    !((d.type == some "offer" || d.type == some "answer") && !(d.sdp.getD "" == ""))

/-- The connection's remote description is not yet set (including the case
that no connection object exists). -/
def remoteDescriptionUnset (refs : CallRefs) : Prop :=
  ∀ pc, refs.peerConnection = some pc → pc.remoteDescription = none

/-! ### Sample data for concrete witnesses -/

/-- A well-formed raw message used by witnesses. -/
def sampleRaw : RawMessage :=
  { mid := "m1", senderUserId := .str "u1", receiverUserIdOrRoomId := .str "u2"
    messageContent := "hi", messageType := "text", readStatus := false
    createdAt := "t1", updatedAt := "t1", reactions := none, replyTo := .null }

/-- A second well-formed raw message with a distinct id. -/
def sampleRaw2 : RawMessage :=
  { sampleRaw with mid := "m2", messageContent := "yo" }

/-- A well-formed raw offer description. -/
def sampleOffer : RawSessionDescription :=
  { type := some "offer", sdp := some "v=0" }

/-- A call-refs value holding a pending incoming call (a non-idle session). -/
def sampleBusyRefs : CallRefs :=
  { pendingIncomingCall :=
      some { fromUserId := "p1", callType := "audio", callId := "c1"
             offer := { type := "offer", sdp := "v=0" }, peerName := "P" }
    queuedIceCandidates := []
    activeCallPeerId := "p1"
    activeCallId := "c1"
    activeCallType := "audio"
    peerConnection := none }

/-- A client state with a non-idle call session. -/
def sampleBusyState : CallClientState :=
  { refs := sampleBusyRefs
    callState := { status := "incoming", callType := "audio", peerUserId := "p1"
                   peerName := "P", callId := "c1", error := "" }
    emitted := [] }

/-- An idle client state. -/
def sampleIdleState : CallClientState :=
  { refs := { pendingIncomingCall := none, queuedIceCandidates := []
              activeCallPeerId := "", activeCallId := "", activeCallType := "audio"
              peerConnection := none }
    callState := INITIAL_CALL_STATE
    emitted := [] }

/-- A raw ICE candidate payload used by witnesses. -/
def sampleIcePayload (n : String) : CallIcePayload :=
  { callId := "c1"
    candidate := some { candidate := n, sdpMid := some "0"
                        sdpMLineIndex := some 0, usernameFragment := none } }

/-- A cache of 500 pairwise-distinct event ids. -/
def cache500 : List String :=
  (List.range 500).map (fun n => String.mk (List.replicate n 'a'))

/-- A chat state with two unread conversations, room `r1` being open. -/
def sampleClearedState : ChatState :=
  { selfUserId := "u"
    processedIds := []
    unreadCounts := [("room:r1", 2), ("dm:u9", 1)]
    activeNotificationKey := "room:r1"
    messages := [normalizeIncomingMessage sampleRaw]
    replyToMessage :=
      some { rid := "m1", senderUserId := .str "u1", messageContent := "hi"
             createdAt := "t1" } }

/-- A chat state with room `r9` open and no unread entries. -/
def sampleRoomActiveState : ChatState :=
  { initialChatState "u2" with activeNotificationKey := "room:r9" }

/-- A well-formed raw answer description. -/
def sampleAnswerDesc : RawSessionDescription :=
  { type := some "answer", sdp := some "v=0" }

/-- A normalized ICE candidate used by witnesses. -/
def sampleCand (n : String) : IceCandidate :=
  { candidate := n, sdpMid := some "0", sdpMLineIndex := some 0
    usernameFragment := none }

/-- A connection that has not yet received its remote description. -/
def samplePc : PeerConnection :=
  { remoteDescription := none, appliedCandidates := [] }

/-- A client state in the caller role: live connection awaiting the answer,
two queued ICE candidates. -/
def sampleConnectingState : CallClientState :=
  { refs := { pendingIncomingCall := none
              queuedIceCandidates := [sampleCand "a", sampleCand "b"]
              activeCallPeerId := "p1", activeCallId := "c1"
              activeCallType := "audio"
              peerConnection := some samplePc }
    callState := { status := "connecting", callType := "audio", peerUserId := "p1"
                   peerName := "P", callId := "c1", error := "" }
    emitted := [] }

/-! ### Theorems -/

theorem normalizeSessionDescription_eq_none_iff (o : Option RawSessionDescription) :
    normalizeSessionDescription o = none ↔ sessionDescriptionMalformed o = true := by
  cases o with
  | none => simp [normalizeSessionDescription, sessionDescriptionMalformed]
  | some d =>
    simp only [normalizeSessionDescription, sessionDescriptionMalformed]
    by_cases htype : d.type = some "offer" ∨ d.type = some "answer"
    · have hne : d.type.getD "" ≠ "" := by
        rcases htype with h | h <;> simp [h]
      by_cases hsdp : d.sdp.getD "" = ""
      · simp [htype, hne, hsdp]
      · simp [hne, hsdp]
    · have h1 : (d.type == some "offer") = false := by
        cases hb : d.type == some "offer" with
        | false => rfl
        | true => exact absurd (Or.inl (eq_of_beq hb)) htype
      have h2 : (d.type == some "answer") = false := by
        cases hb : d.type == some "answer" with
        | false => rfl
        | true => exact absurd (Or.inr (eq_of_beq hb)) htype
      simp [htype, h1, h2]

/-- **C10**: an inbound `call:offer` whose payload lacks a sender user id, or
whose session description is malformed (type not exactly `"offer"` or
`"answer"`, or sdp absent or not a non-empty string), is silently dropped:
no state change and no outbound event — in particular no busy reply even
when the local session is idle. -/
theorem callOffer_invalid_payload_dropped (users : List (String × String))
    (generatedCallId : String) (s : CallClientState) (payload : CallOfferPayload)
    (h : payload.fromUserId = "" ∨ sessionDescriptionMalformed payload.offer = true) :
    onCallOffer users generatedCallId s payload = s := by
  unfold onCallOffer
  cases hn : normalizeSessionDescription payload.offer with
  | none => rfl
  | some offer =>
    have hmal : sessionDescriptionMalformed payload.offer ≠ true := by
      intro hm
      rw [← normalizeSessionDescription_eq_none_iff] at hm
      rw [hm] at hn
      cases hn
    rcases h with h | h
    · simp [h]
    · exact absurd h hmal

/-- Witness for `callOffer_invalid_payload_dropped` at a concrete idle state
and a payload without a sender id. -/
theorem callOffer_invalid_payload_dropped_witness :
    (("" : String) = "" ∨ sessionDescriptionMalformed (some sampleOffer) = true) ∧
      onCallOffer [] "g1" sampleIdleState
        { fromUserId := "", callType := "audio", callId := "c9"
          offer := some sampleOffer, fromUserName := "" } = sampleIdleState :=
  ⟨Or.inl rfl,
    callOffer_invalid_payload_dropped [] "g1" sampleIdleState
      { fromUserId := "", callType := "audio", callId := "c9"
        offer := some sampleOffer, fromUserName := "" } (Or.inl rfl)⟩

/-- **C1**: an inbound `call:offer` carrying a sender id and a well-formed
description, received while the local call session is not idle — a pending
incoming offer, an active peer id, or a live connection object exists —
makes the client emit `call:end` with reason `"busy"` back to the sender and
leaves the whole call state (refs and UI state: status, call id, peer id,
pending offer, ICE queue) unchanged. -/
theorem callOffer_busy_rejected_without_state_change
    (users : List (String × String)) (generatedCallId : String)
    (s : CallClientState) (payload : CallOfferPayload)
    (hfrom : payload.fromUserId ≠ "")
    (hoffer : sessionDescriptionMalformed payload.offer = false)
    (hbusy : s.refs.pendingIncomingCall.isSome ∨ s.refs.activeCallPeerId ≠ "" ∨
      s.refs.peerConnection.isSome) :
    onCallOffer users generatedCallId s payload =
      { s with emitted := s.emitted ++
          [OutboundEvent.callEnd payload.fromUserId
            (some (if payload.callId = "" then generatedCallId else payload.callId))
            "busy"] } := by
  unfold onCallOffer
  cases hn : normalizeSessionDescription payload.offer with
  | none =>
    rw [normalizeSessionDescription_eq_none_iff] at hn
    rw [hn] at hoffer
    cases hoffer
  | some offer =>
    simp only [if_neg hfrom]
    rw [if_pos hbusy]

/-- Witness for `callOffer_busy_rejected_without_state_change`: a busy local
session rejects a concrete valid offer from a second caller. -/
theorem callOffer_busy_rejected_witness :
    (("q" : String) ≠ "" ∧ sessionDescriptionMalformed (some sampleOffer) = false ∧
      (sampleBusyState.refs.pendingIncomingCall.isSome ∨
        sampleBusyState.refs.activeCallPeerId ≠ "" ∨
        sampleBusyState.refs.peerConnection.isSome)) ∧
      onCallOffer [] "g1" sampleBusyState
        { fromUserId := "q", callType := "video", callId := "cq"
          offer := some sampleOffer, fromUserName := "Q" } =
        { sampleBusyState with
            emitted := [OutboundEvent.callEnd "q" (some "cq") "busy"] } := by
  refine ⟨⟨by decide, by decide, by decide⟩, ?_⟩
  have h := callOffer_busy_rejected_without_state_change [] "g1" sampleBusyState
    { fromUserId := "q", callType := "video", callId := "cq"
      offer := some sampleOffer, fromUserName := "Q" }
    (by decide) (by decide) (by decide)
  rw [h]
  decide

/-- **C7**: an inbound `call:answer` whose call id does not match the locally
active call id is ignored with no state change; a matching answer (with a
live connection and a well-formed description) is applied as the remote
description, the queued ICE candidates are flushed into the connection, and
the status advances to `"connecting"` unless the session is `"incoming"`. -/
theorem callAnswer_mismatch_ignored_matching_applied :
    (∀ (s : CallClientState) (payload : CallAnswerPayload),
        payload.callId ≠ "" → s.refs.activeCallId ≠ "" →
        payload.callId ≠ s.refs.activeCallId → onCallAnswer s payload = s) ∧
    (∀ (s : CallClientState) (payload : CallAnswerPayload)
        (pc : PeerConnection) (a : SessionDescription),
        payload.callId = s.refs.activeCallId →
        s.refs.peerConnection = some pc →
        normalizeSessionDescription payload.answer = some a →
        (onCallAnswer s payload).refs.peerConnection =
            some { remoteDescription := some a
                   appliedCandidates :=
                     pc.appliedCandidates ++ s.refs.queuedIceCandidates } ∧
          (onCallAnswer s payload).refs.queuedIceCandidates = [] ∧
          (onCallAnswer s payload).callState.status =
            (if s.callState.status = "incoming" then s.callState.status
             else "connecting")) := by
  constructor
  · intro s payload h1 h2 h3
    unfold onCallAnswer
    rw [if_pos ⟨h1, h2, h3⟩]
  · intro s payload pc a hmatch hpc hanswer
    have hguard : ¬(payload.callId ≠ "" ∧ s.refs.activeCallId ≠ "" ∧
        payload.callId ≠ s.refs.activeCallId) := by
      rintro ⟨-, -, h3⟩
      exact h3 hmatch
    unfold onCallAnswer
    rw [if_neg hguard]
    simp only [hpc, hanswer, flushQueuedIceCandidates]
    refine ⟨by trivial, by trivial, ?_⟩
    by_cases hst : s.callState.status = "incoming" <;> simp [hst]

/-- Witness for `callAnswer_mismatch_ignored_matching_applied`: a mismatched
answer leaves a concrete state unchanged; the matching answer on the same
state sets the remote description, applies the two queued candidates in
order, empties the queue and moves to `"connecting"`. -/
theorem callAnswer_witness :
    onCallAnswer sampleConnectingState
        { callId := "cX", answer := some sampleAnswerDesc } =
      sampleConnectingState ∧
    (onCallAnswer sampleConnectingState
        { callId := "c1", answer := some sampleAnswerDesc }).refs.peerConnection =
      some { remoteDescription := some { type := "answer", sdp := "v=0" }
             appliedCandidates := [sampleCand "a", sampleCand "b"] } ∧
    (onCallAnswer sampleConnectingState
        { callId := "c1", answer := some sampleAnswerDesc }).refs.queuedIceCandidates =
      [] ∧
    (onCallAnswer sampleConnectingState
        { callId := "c1", answer := some sampleAnswerDesc }).callState.status =
      "connecting" := by
  refine ⟨?_, ?_⟩
  · exact callAnswer_mismatch_ignored_matching_applied.1 sampleConnectingState
      { callId := "cX", answer := some sampleAnswerDesc }
      (by decide) (by decide) (by decide)
  · have h := callAnswer_mismatch_ignored_matching_applied.2 sampleConnectingState
      { callId := "c1", answer := some sampleAnswerDesc }
      samplePc { type := "answer", sdp := "v=0" }
      (by decide) (by decide) (by decide)
    refine ⟨?_, h.2.1, ?_⟩
    · rw [h.1]; decide
    · rw [h.2.2]; decide

theorem onCallIceCandidate_queues (refs : CallRefs) (p : CallIcePayload)
    (c : IceCandidate)
    (hn : normalizeIceCandidatePayload p.candidate = some c)
    (hm : p.callId = refs.activeCallId)
    (hun : remoteDescriptionUnset refs) :
    onCallIceCandidate refs p =
      { refs with queuedIceCandidates := refs.queuedIceCandidates ++ [c] } := by
  have hguard : ¬(p.callId ≠ "" ∧ refs.activeCallId ≠ "" ∧
      p.callId ≠ refs.activeCallId) := by
    rintro ⟨-, -, h3⟩
    exact h3 hm
  cases hpc : refs.peerConnection with
  | none => simp only [onCallIceCandidate, hn, if_neg hguard, hpc]
  | some pc => simp only [onCallIceCandidate, hn, if_neg hguard, hpc, hun pc hpc]

theorem foldl_ice_queue (ps : List CallIcePayload) (refs : CallRefs)
    (hun : remoteDescriptionUnset refs)
    (hmatch : ∀ p ∈ ps, p.callId = refs.activeCallId ∧
      (normalizeIceCandidatePayload p.candidate).isSome) :
    ps.foldl onCallIceCandidate refs =
      { refs with queuedIceCandidates :=
          refs.queuedIceCandidates ++
            ps.filterMap (fun p => normalizeIceCandidatePayload p.candidate) } := by
  induction ps generalizing refs with
  | nil => simp
  | cons p ps ih =>
    obtain ⟨hm, hsome⟩ := hmatch p (List.mem_cons_self p ps)
    obtain ⟨c, hc⟩ := Option.isSome_iff_exists.mp hsome
    rw [List.foldl_cons, onCallIceCandidate_queues refs p c hc hm hun]
    rw [ih { refs with queuedIceCandidates := refs.queuedIceCandidates ++ [c] }
      (fun pc h => hun pc h)
      (fun q hq => hmatch q (List.mem_cons_of_mem p hq))]
    simp [hc, List.append_assoc]

/-- **C5**: inbound ICE candidates with matching call id arriving before the
remote description is set are appended to the pending queue in arrival
order; flushing after the remote description is applied passes them to the
connection in that same order and leaves the queue empty. -/
theorem ice_candidates_queued_and_flushed_in_order :
    (∀ (refs : CallRefs) (ps : List CallIcePayload),
        remoteDescriptionUnset refs →
        (∀ p ∈ ps, p.callId = refs.activeCallId ∧
          (normalizeIceCandidatePayload p.candidate).isSome) →
        ps.foldl onCallIceCandidate refs =
          { refs with queuedIceCandidates :=
              refs.queuedIceCandidates ++
                ps.filterMap (fun p => normalizeIceCandidatePayload p.candidate) }) ∧
    (∀ (refs : CallRefs) (pc : PeerConnection) (d : SessionDescription),
        refs.peerConnection = some pc → pc.remoteDescription = some d →
        (flushQueuedIceCandidates refs).queuedIceCandidates = [] ∧
          (flushQueuedIceCandidates refs).peerConnection =
            some { remoteDescription := some d
                   appliedCandidates :=
                     pc.appliedCandidates ++ refs.queuedIceCandidates }) := by
  constructor
  · intro refs ps hun hmatch
    exact foldl_ice_queue ps refs hun hmatch
  · intro refs pc d hpc hrd
    simp only [flushQueuedIceCandidates, hpc, hrd]
    exact ⟨by trivial, by trivial⟩

/-- Witness for `ice_candidates_queued_and_flushed_in_order`: two concrete
candidates queue in arrival order on a pre-answer state, and flushing the
answered connection applies them in that order and empties the queue. -/
theorem ice_candidates_witness :
    (([sampleIcePayload "x", sampleIcePayload "y"].foldl onCallIceCandidate
        sampleConnectingState.refs).queuedIceCandidates =
      [sampleCand "a", sampleCand "b", sampleCand "x", sampleCand "y"]) ∧
    (flushQueuedIceCandidates
        { sampleConnectingState.refs with
            peerConnection :=
              some { remoteDescription := some { type := "answer", sdp := "v=0" }
                     appliedCandidates := [] } }).queuedIceCandidates = [] ∧
    (flushQueuedIceCandidates
        { sampleConnectingState.refs with
            peerConnection :=
              some { remoteDescription := some { type := "answer", sdp := "v=0" }
                     appliedCandidates := [] } }).peerConnection =
      some { remoteDescription := some { type := "answer", sdp := "v=0" }
             appliedCandidates := [sampleCand "a", sampleCand "b"] } := by
  refine ⟨?_, ?_, ?_⟩
  · have h := ice_candidates_queued_and_flushed_in_order.1
      sampleConnectingState.refs [sampleIcePayload "x", sampleIcePayload "y"]
      (by
        intro pc hpc
        have hs : samplePc = pc := by injection hpc
        rw [← hs]
        rfl)
      (by intro p hp; fin_cases hp <;> exact ⟨by decide, by decide⟩)
    rw [h]
    decide
  · have h := ice_candidates_queued_and_flushed_in_order.2
      { sampleConnectingState.refs with
          peerConnection :=
            some { remoteDescription := some { type := "answer", sdp := "v=0" }
                   appliedCandidates := [] } }
      { remoteDescription := some { type := "answer", sdp := "v=0" }
        appliedCandidates := [] }
      { type := "answer", sdp := "v=0" } (by decide) (by decide)
    exact h.1
  · have h := ice_candidates_queued_and_flushed_in_order.2
      { sampleConnectingState.refs with
          peerConnection :=
            some { remoteDescription := some { type := "answer", sdp := "v=0" }
                   appliedCandidates := [] } }
      { remoteDescription := some { type := "answer", sdp := "v=0" }
        appliedCandidates := [] }
      { type := "answer", sdp := "v=0" } (by decide) (by decide)
    rw [h.2]
    decide

theorem onNewMessage_processedIds (s : ChatState) (payload : RawMessage)
    (focused : Bool) :
    (onNewMessage s payload focused).processedIds =
      if payload.mid = "" ∨ s.processedIds.contains payload.mid then s.processedIds
      else if 500 < s.processedIds.length + 1 then
        (s.processedIds ++ [payload.mid]).tail
      else s.processedIds ++ [payload.mid] := by
  unfold onNewMessage
  by_cases h1 : payload.mid = ""
  · simp [h1]
  · by_cases h2 : s.processedIds.contains payload.mid
    · have hm : payload.mid ∈ s.processedIds := by simpa using h2
      simp [h1, h2, hm]
    · simp [h1, h2, apply_ite ChatState.processedIds, List.length_append]

/-- **C4**: after processing any push event the processed-event cache holds
at most 500 entries; inserting a fresh id when the cache already holds
exactly 500 evicts exactly one entry — the oldest-inserted one (the head of
the insertion-ordered cache). -/
theorem processed_cache_bounded (s : ChatState) (payload : RawMessage)
    (focused : Bool) :
    (s.processedIds.length ≤ 500 →
        (onNewMessage s payload focused).processedIds.length ≤ 500) ∧
    (s.processedIds.length = 500 → payload.mid ≠ "" →
        payload.mid ∉ s.processedIds →
        (onNewMessage s payload focused).processedIds =
            s.processedIds.tail ++ [payload.mid] ∧
          (onNewMessage s payload focused).processedIds.length = 500) := by
  constructor
  · intro hle
    rw [onNewMessage_processedIds]
    by_cases hc : payload.mid = "" ∨ s.processedIds.contains payload.mid
    · rw [if_pos hc]
      exact hle
    · rw [if_neg hc]
      by_cases hlen : 500 < s.processedIds.length + 1
      · rw [if_pos hlen, List.length_tail, List.length_append]
        simp
        omega
      · rw [if_neg hlen, List.length_append]
        simp
        omega
  · intro hlen hmid hnot
    have hc : ¬(payload.mid = "" ∨ s.processedIds.contains payload.mid) := by
      rintro (h | h)
      · exact hmid h
      · exact hnot (by simpa using h)
    have hgt : 500 < s.processedIds.length + 1 := by omega
    have htail : (s.processedIds ++ [payload.mid]).tail =
        s.processedIds.tail ++ [payload.mid] := by
      cases hq : s.processedIds with
      | nil => rw [hq] at hlen; simp at hlen
      | cons a t => rfl
    rw [onNewMessage_processedIds, if_neg hc, if_pos hgt, htail]
    refine ⟨rfl, ?_⟩
    rw [List.length_append, List.length_tail]
    simp
    omega

set_option maxRecDepth 40000 in
/-- Witness for `processed_cache_bounded`: on an empty cache the bound is
kept, and on a full 500-entry cache a fresh id evicts exactly the head. -/
theorem processed_cache_bounded_witness :
    ((initialChatState "u2").processedIds.length ≤ 500 ∧
      (onNewMessage (initialChatState "u2") sampleRaw true).processedIds.length ≤
        500) ∧
    ({ initialChatState "u2" with processedIds := cache500 }.processedIds.length =
        500 ∧
      sampleRaw.mid ≠ "" ∧ sampleRaw.mid ∉ cache500 ∧
      (onNewMessage { initialChatState "u2" with processedIds := cache500 }
            sampleRaw true).processedIds =
          cache500.tail ++ [sampleRaw.mid] ∧
        (onNewMessage { initialChatState "u2" with processedIds := cache500 }
            sampleRaw true).processedIds.length = 500) := by
  have h1 := (processed_cache_bounded (initialChatState "u2") sampleRaw true).1
    (by decide)
  have h2 := (processed_cache_bounded
    { initialChatState "u2" with processedIds := cache500 } sampleRaw true).2
    (by decide) (by decide) (by decide)
  exact ⟨⟨by decide, h1⟩, by decide, by decide, by decide, h2.1, h2.2⟩

theorem buildDmNotificationKey_ne_empty (t : String) :
    buildDmNotificationKey t ≠ "" := by
  intro h
  have h2 := congrArg String.data h
  rw [buildDmNotificationKey, String.data_append] at h2
  simp at h2

theorem buildRoomNotificationKey_ne_empty (t : String) :
    buildRoomNotificationKey t ≠ "" := by
  intro h
  have h2 := congrArg String.data h
  rw [buildRoomNotificationKey, String.data_append] at h2
  simp at h2

theorem clearUnreadForKey_subset {u : List (String × Nat)} {k : String} :
    ∀ p ∈ clearUnreadForKey u k, p ∈ u := by
  intro p hp
  by_cases hk : k = ""
  · simpa [clearUnreadForKey, hk] using hp
  · cases hg : unreadGet u k with
    | none => simpa [clearUnreadForKey, hk, hg] using hp
    | some v =>
      by_cases hv : v = 0
      · simpa [clearUnreadForKey, hk, hg, hv] using hp
      · have hp2 : p ∈ u.filter (fun q => q.1 ≠ k) := by
          simpa [clearUnreadForKey, hk, hg, hv] using hp
        exact (List.mem_filter.mp hp2).1

theorem clearUnreadForKey_no_entry {u : List (String × Nat)} {k : String}
    (hk : k ≠ "") (hpos : ∀ p ∈ u, p.2 ≠ 0) :
    ∀ p ∈ clearUnreadForKey u k, p.1 ≠ k := by
  intro p hp
  cases hg : unreadGet u k with
  | none =>
    have hfind : u.find? (fun q => q.1 = k) = none := by
      have := hg
      unfold unreadGet at this
      exact Option.map_eq_none.mp this
    have hmem : p ∈ u := clearUnreadForKey_subset p hp
    have := List.find?_eq_none.mp hfind p hmem
    simpa using this
  | some v =>
    obtain ⟨q, hq, hqv⟩ : ∃ q, u.find? (fun r => r.1 = k) = some q ∧ q.2 = v := by
      have := hg
      unfold unreadGet at this
      exact Option.map_eq_some.mp this
    have hv : v ≠ 0 := by
      rw [← hqv]
      exact hpos q (List.mem_of_find?_eq_some hq)
    have hp2 : p ∈ u.filter (fun r => r.1 ≠ k) := by
      simpa [clearUnreadForKey, hk, hg, hv] using hp
    have := (List.mem_filter.mp hp2).2
    simpa using this

/-- **C8**: an inbound `conversation:cleared` with a non-empty target clears
the unread entries for both the room and the direct-message interpretation
of the target; when the target matches the conversation currently open
(under either key), the message list becomes empty and the pending
reply-composer state is cleared. -/
theorem conversation_cleared_applies (s : ChatState) (target : String)
    (htarget : target ≠ "")
    (hpos : ∀ p ∈ s.unreadCounts, p.2 ≠ 0) :
    (∀ p ∈ (onConversationCleared s target).unreadCounts,
        p.1 ≠ buildRoomNotificationKey target ∧
          p.1 ≠ buildDmNotificationKey target) ∧
    ((s.activeNotificationKey = buildDmNotificationKey target ∨
        s.activeNotificationKey = buildRoomNotificationKey target) →
      (onConversationCleared s target).messages = [] ∧
        (onConversationCleared s target).replyToMessage = none) := by
  have hposInner : ∀ p ∈ clearUnreadForKey s.unreadCounts
      (buildDmNotificationKey target), p.2 ≠ 0 :=
    fun p hp => hpos p (clearUnreadForKey_subset p hp)
  have hunread : (onConversationCleared s target).unreadCounts =
      clearUnreadForKey
        (clearUnreadForKey s.unreadCounts (buildDmNotificationKey target))
        (buildRoomNotificationKey target) := by
    by_cases hact : s.activeNotificationKey = buildDmNotificationKey target ∨
      s.activeNotificationKey = buildRoomNotificationKey target
    · simp [onConversationCleared, htarget, hact]
    · simp [onConversationCleared, htarget, hact]
  constructor
  · intro p hp
    rw [hunread] at hp
    refine ⟨clearUnreadForKey_no_entry (buildRoomNotificationKey_ne_empty target)
      hposInner p hp, ?_⟩
    have hp2 : p ∈ clearUnreadForKey s.unreadCounts
        (buildDmNotificationKey target) := clearUnreadForKey_subset p hp
    exact clearUnreadForKey_no_entry (buildDmNotificationKey_ne_empty target)
      hpos p hp2
  · intro hact
    constructor
    · simp [onConversationCleared, htarget, hact]
    · simp [onConversationCleared, htarget, hact]

/-- Witness for `conversation_cleared_applies`: clearing room `r1` while it
is open empties the message list, dismisses the reply composer, and removes
its unread entries. -/
theorem conversation_cleared_witness :
    (("r1" : String) ≠ "" ∧ ∀ p ∈ sampleClearedState.unreadCounts, p.2 ≠ 0) ∧
    (∀ p ∈ (onConversationCleared sampleClearedState "r1").unreadCounts,
        p.1 ≠ buildRoomNotificationKey "r1" ∧
          p.1 ≠ buildDmNotificationKey "r1") ∧
    (onConversationCleared sampleClearedState "r1").messages = [] ∧
    (onConversationCleared sampleClearedState "r1").replyToMessage = none := by
  have h := conversation_cleared_applies sampleClearedState "r1"
    (by decide) (by decide)
  have h2 := h.2 (Or.inr (by decide))
  exact ⟨⟨by decide, by decide⟩, h.1, h2.1, h2.2⟩

theorem bool_eq_of_iff {a b : Bool} (h : a = true ↔ b = true) : a = b := by
  cases a <;> cases b <;> simp_all

theorem toId_jsIdOrNull (x : JsId) : toId (jsIdOrNull x) = toId x := by
  cases x with
  | null => rfl
  | str s => by_cases h : s = "" <;> simp [jsIdOrNull, toId, h]
  | obj id => rfl

theorem if_rid_self (r : String) : (if r = "" then "" else r) = r := by
  by_cases h : r = "" <;> simp [h]

theorem areReactionsEqual_true_iff (a b : List RawReaction) :
    areReactionsEqual a b = true ↔
      List.Forall₂ (fun x y => toId x.user = toId y.user ∧ x.emoji = y.emoji) a b := by
  induction a generalizing b with
  | nil => cases b <;> simp [areReactionsEqual]
  | cons x xs ih =>
    cases b with
    | nil => simp [areReactionsEqual]
    | cons y ys =>
      simp [areReactionsEqual, normalizeReaction, ih, List.forall₂_cons,
        and_assoc]

theorem specReactionsEqual_true_iff (a b : List RawReaction) :
    specReactionsEqual a b = true ↔
      List.Forall₂ (fun x y => toId x.user = toId y.user ∧ x.emoji = y.emoji) a b := by
  rw [List.forall₂_iff_zip]
  simp [specReactionsEqual, List.all_eq_true]

theorem areReactionsEqual_eq_spec (a b : List RawReaction) :
    areReactionsEqual a b = specReactionsEqual a b :=
  bool_eq_of_iff (by rw [areReactionsEqual_true_iff, specReactionsEqual_true_iff])

theorem shouldReuseMessage_eq_spec (prev next : NormMessage) :
    shouldReuseMessage (some prev) next = specFieldEqual prev next := by
  apply bool_eq_of_iff
  cases hp : prev.replyTo with
  | none =>
    cases hn : next.replyTo with
    | none =>
      simp [shouldReuseMessage, specFieldEqual, hp, hn, renormalizeReplyPreview,
        specReplyPreviewEqual, areReactionsEqual_eq_spec, and_assoc]
    | some q =>
      simp [shouldReuseMessage, specFieldEqual, hp, hn, renormalizeReplyPreview,
        specReplyPreviewEqual]
  | some p =>
    cases hn : next.replyTo with
    | none =>
      simp [shouldReuseMessage, specFieldEqual, hp, hn, renormalizeReplyPreview,
        specReplyPreviewEqual]
    | some q =>
      simp [shouldReuseMessage, specFieldEqual, hp, hn, renormalizeReplyPreview,
        specReplyPreviewEqual, if_rid_self, toId_jsIdOrNull,
        areReactionsEqual_eq_spec, and_assoc]

/-- **C3**: for each incoming message of a reconcile cycle, when a stored
message with the same id exists and is field-equal in the spec §4.2 sense —
identical id, body, type, read status, timestamps, sender id, reply preview
(id, body, sender, timestamp) and order-sensitive equal reaction list — the
reconciler output at that position is the identical pre-existing entry;
otherwise it is the freshly normalized incoming version. -/
theorem reconcile_referential_stability (previousMessages : List NormMessage)
    (incomingMessages : List RawMessage) (i : Nat)
    (h : i < incomingMessages.length) :
    (reconcileMessages previousMessages incomingMessages)[i]? =
      some (
        let normalizedMessage := normalizeIncomingMessage incomingMessages[i]
        match findByIdLastWins previousMessages normalizedMessage.mid with
        | some existing =>
          if specFieldEqual existing normalizedMessage then existing
          else normalizedMessage
        | none => normalizedMessage) := by
  unfold reconcileMessages
  rw [List.getElem?_map, List.getElem?_eq_getElem h]
  simp only [Option.map_some', shouldReuseMessage_eq_spec]

/-- Witness for `reconcile_referential_stability`: a snapshot entry
field-equal to the stored message yields the stored object itself. -/
theorem reconcile_referential_stability_witness :
    (0 < [sampleRaw].length) ∧
      (reconcileMessages [normalizeIncomingMessage sampleRaw] [sampleRaw])[0]? =
        some (normalizeIncomingMessage sampleRaw) := by
  refine ⟨by decide, ?_⟩
  have h := reconcile_referential_stability [normalizeIncomingMessage sampleRaw]
    [sampleRaw] 0 (by decide)
  rw [h]
  decide

theorem findByIdLastWins_mid {previous : List NormMessage} {id : String}
    {e : NormMessage} (h : findByIdLastWins previous id = some e) : e.mid = id := by
  unfold findByIdLastWins at h
  have := List.find?_some h
  simpa using this

theorem reconcileMessages_map_mid (previous : List NormMessage)
    (incoming : List RawMessage) :
    (reconcileMessages previous incoming).map (fun m => m.mid) =
      incoming.map (fun m => m.mid) := by
  unfold reconcileMessages
  rw [List.map_map]
  apply List.map_congr_left
  intro m _
  simp only [Function.comp_apply]
  cases hf : findByIdLastWins previous (normalizeIncomingMessage m).mid with
  | none =>
    simp only [hf]
    rfl
  | some e =>
    by_cases hr : shouldReuseMessage (some e) (normalizeIncomingMessage m) = true
    · simp only [hf]
      rw [if_pos hr]
      exact findByIdLastWins_mid hf
    · simp only [hf]
      rw [if_neg hr]
      rfl

theorem reconcile_entries_forall₂ (previous : List NormMessage)
    (incoming : List RawMessage) :
    List.Forall₂ (fun x m => x = normalizeIncomingMessage m ∨
        shouldReuseMessage (some x) (normalizeIncomingMessage m) = true)
      (reconcileMessages previous incoming) incoming := by
  unfold reconcileMessages
  induction incoming with
  | nil => exact List.Forall₂.nil
  | cons m ms ih =>
    rw [List.map_cons]
    refine List.Forall₂.cons ?_ ih
    cases hf : findByIdLastWins previous (normalizeIncomingMessage m).mid with
    | none => simp [hf]
    | some e =>
      by_cases hr : shouldReuseMessage (some e) (normalizeIncomingMessage m) = true
      · simp only [hf]
        rw [if_pos hr]
        exact Or.inr hr
      · simp only [hf]
        rw [if_neg hr]
        exact Or.inl rfl

/-- **C9**: a fetch-and-merge cycle yields exactly the polled snapshot, in
the snapshot's order — the output ids are the snapshot ids pointwise, each
entry is the normalized snapshot message or a stored object the reconciler
judged equal to it, and a stored message whose id is absent from the
snapshot does not survive the merge. -/
theorem reconcile_outputs_exactly_snapshot (previousMessages : List NormMessage)
    (incomingMessages : List RawMessage) :
    ((reconcileMessages previousMessages incomingMessages).map (fun m => m.mid) =
        incomingMessages.map (fun m => m.mid)) ∧
      List.Forall₂ (fun x m => x = normalizeIncomingMessage m ∨
          shouldReuseMessage (some x) (normalizeIncomingMessage m) = true)
        (reconcileMessages previousMessages incomingMessages) incomingMessages ∧
      ∀ p : NormMessage, p.mid ∉ incomingMessages.map (fun m => m.mid) →
        p ∉ reconcileMessages previousMessages incomingMessages := by
  refine ⟨reconcileMessages_map_mid previousMessages incomingMessages,
    reconcile_entries_forall₂ previousMessages incomingMessages, ?_⟩
  intro p hp hmem
  have hin : p.mid ∈ (reconcileMessages previousMessages incomingMessages).map
      (fun m => m.mid) := List.mem_map_of_mem (fun m => m.mid) hmem
  rw [reconcileMessages_map_mid] at hin
  exact hp hin

/-- Witness for `reconcile_outputs_exactly_snapshot`: a stored push-delivered
message absent from the polled snapshot is dropped by the merge. -/
theorem reconcile_outputs_exactly_snapshot_witness :
    ((reconcileMessages [normalizeIncomingMessage sampleRaw2] [sampleRaw]).map
        (fun m => m.mid) = ["m1"]) ∧
      ((normalizeIncomingMessage sampleRaw2).mid ∉
        [sampleRaw].map (fun m => m.mid)) ∧
      normalizeIncomingMessage sampleRaw2 ∉
        reconcileMessages [normalizeIncomingMessage sampleRaw2] [sampleRaw] := by
  have h := reconcile_outputs_exactly_snapshot
    [normalizeIncomingMessage sampleRaw2] [sampleRaw]
  refine ⟨?_, by decide, h.2.2 _ (by decide)⟩
  rw [h.1]
  decide

theorem appendRealtimeMessage_nodup (l : List NormMessage) (m : RawMessage)
    (h : (l.map (fun x => x.mid)).Nodup) :
    ((appendRealtimeMessage l m).map (fun x => x.mid)).Nodup := by
  unfold appendRealtimeMessage
  by_cases h1 : m.mid = ""
  · simpa [h1] using h
  · by_cases h2 : l.any (fun existing => existing.mid = m.mid)
    · simp only [h1, if_false, ite_false, h2, if_true, ite_true]
      simpa [h1, h2] using h
    · have hnotin : m.mid ∉ l.map (fun x => x.mid) := by
        intro hmem
        obtain ⟨x, hx, hxe⟩ := List.mem_map.mp hmem
        exact h2 (List.any_eq_true.mpr ⟨x, hx, by simpa using hxe⟩)
      rw [if_neg h1, if_neg h2, List.map_append]
      refine List.Nodup.append h (List.nodup_singleton _) ?_
      intro a ha hb
      simp only [List.map_cons, List.map_nil, List.mem_singleton] at hb
      rw [hb] at ha
      exact hnotin ha

theorem onReactionUpdated_map_mid (l : List NormMessage) (id : String)
    (rs : List RawReaction) :
    (onReactionUpdated l id rs).map (fun m => m.mid) = l.map (fun m => m.mid) := by
  unfold onReactionUpdated
  by_cases h : id = ""
  · simp [h]
  · rw [if_neg h, List.map_map]
    apply List.map_congr_left
    intro m _
    by_cases hm : m.mid = id <;> simp [hm]

theorem onMessageDeleted_nodup (l : List NormMessage) (id : String)
    (h : (l.map (fun m => m.mid)).Nodup) :
    ((onMessageDeleted l id).map (fun m => m.mid)).Nodup := by
  unfold onMessageDeleted
  by_cases h1 : id = ""
  · simpa [h1] using h
  · rw [if_neg h1, List.map_map]
    have heq : ((l.filter (fun m => m.mid ≠ id)).map
        ((fun m => m.mid) ∘ (fun message =>
          let replyId := replyToId message.replyTo
          if replyId ≠ "" ∧ replyId = id then { message with replyTo := none }
          else message))) =
        (l.filter (fun m => m.mid ≠ id)).map (fun m => m.mid) := by
      apply List.map_congr_left
      intro m _
      simp only [Function.comp_apply]
      by_cases hr : replyToId m.replyTo ≠ "" ∧ replyToId m.replyTo = id <;>
        simp [hr, h1]
    rw [heq]
    have hsub : ((l.filter (fun m => m.mid ≠ id)).map (fun m => m.mid)).Sublist
        (l.map (fun m => m.mid)) := (List.filter_sublist l).map (fun m => m.mid)
    exact h.sublist hsub

theorem onNewMessage_messages (s : ChatState) (payload : RawMessage)
    (focused : Bool) :
    (onNewMessage s payload focused).messages = s.messages ∨
      (onNewMessage s payload focused).messages =
        appendRealtimeMessage s.messages payload := by
  unfold onNewMessage
  by_cases h1 : payload.mid = ""
  · simp [h1]
  · by_cases h2 : s.processedIds.contains payload.mid
    · have hm : payload.mid ∈ s.processedIds := by simpa using h2
      simp [h1, h2, hm]
    · have hm2 : payload.mid ∉ s.processedIds := by simpa using h2
      by_cases h3 : getMessageNotificationKey payload.senderUserId
        payload.receiverUserIdOrRoomId s.selfUserId = ""
      · simp [h1, h2, hm2, h3]
      · by_cases h4 : getMessageNotificationKey payload.senderUserId
          payload.receiverUserIdOrRoomId s.selfUserId = s.activeNotificationKey
        · have h5 : ¬s.activeNotificationKey = "" := by
            rw [← h4]
            exact h3
          simp [h1, h2, hm2, h3, h4, h5]
        · simp [h1, h2, hm2, h3, h4]

theorem onConversationCleared_messages (s : ChatState) (t : String) :
    ((onConversationCleared s t).messages = s.messages ∧
        (onConversationCleared s t).replyToMessage = s.replyToMessage) ∨
      ((onConversationCleared s t).messages = [] ∧
        (onConversationCleared s t).replyToMessage = none) := by
  unfold onConversationCleared
  by_cases h1 : t = ""
  · simp [h1]
  · by_cases h2 : s.activeNotificationKey = buildDmNotificationKey t ∨
      s.activeNotificationKey = buildRoomNotificationKey t
    · simp [h1, h2]
    · simp [h1, h2]

theorem chatStep_messages_nodup (s : ChatState) (e : ChatEvent)
    (h : (s.messages.map (fun m => m.mid)).Nodup)
    (hsnap : ∀ snapshot, e = ChatEvent.fetchMerge snapshot →
      (snapshot.map (fun m => m.mid)).Nodup) :
    ((chatStep s e).messages.map (fun m => m.mid)).Nodup := by
  cases e with
  | newMessage payload focused =>
    show ((onNewMessage s payload focused).messages.map (fun m => m.mid)).Nodup
    rcases onNewMessage_messages s payload focused with heq | heq <;> rw [heq]
    · exact h
    · exact appendRealtimeMessage_nodup s.messages payload h
  | reactionUpdated id rs =>
    show ((onReactionUpdated s.messages id rs).map (fun m => m.mid)).Nodup
    rw [onReactionUpdated_map_mid]
    exact h
  | messageDeleted id =>
    by_cases h1 : id = ""
    · simpa [chatStep, h1] using h
    · have : (chatStep s (ChatEvent.messageDeleted id)).messages =
          onMessageDeleted s.messages id := by
        simp [chatStep, h1]
      rw [this]
      exact onMessageDeleted_nodup s.messages id h
  | conversationCleared t =>
    show (((onConversationCleared s t).messages).map (fun m => m.mid)).Nodup
    rcases onConversationCleared_messages s t with ⟨heq, -⟩ | ⟨heq, -⟩ <;> rw [heq]
    · exact h
    · simp
  | roomRemoved roomId => exact h
  | activateConversation key => exact h
  | fetchMerge snapshot =>
    show ((reconcileMessages s.messages snapshot).map (fun m => m.mid)).Nodup
    rw [reconcileMessages_map_mid]
    exact hsnap snapshot rfl
  | deselectAll => simp [chatStep]

theorem foldl_messages_nodup (events : List ChatEvent) (s : ChatState)
    (h : (s.messages.map (fun m => m.mid)).Nodup)
    (hsnap : ∀ snapshot, ChatEvent.fetchMerge snapshot ∈ events →
      (snapshot.map (fun m => m.mid)).Nodup) :
    ((events.foldl chatStep s).messages.map (fun m => m.mid)).Nodup := by
  induction events generalizing s with
  | nil => exact h
  | cons e es ih =>
    rw [List.foldl_cons]
    apply ih
    · exact chatStep_messages_nodup s e h
        (fun snap heq => hsnap snap (by rw [heq]; exact List.mem_cons_self _ _))
    · intro snap hm
      exact hsnap snap (List.mem_cons_of_mem _ hm)

/-- **C2**: in every reachable state of the session core the message list
has pairwise-distinct message ids (given that each polled snapshot is keyed
by id); `appendRealtimeMessage` is a no-op when the id is already present;
and a duplicate push delivery of an already-processed id changes nothing at
all. -/
theorem message_list_never_duplicates (selfUserId : String)
    (events : List ChatEvent)
    (hsnap : ∀ snapshot, ChatEvent.fetchMerge snapshot ∈ events →
      (snapshot.map (fun m => m.mid)).Nodup) :
    (((events.foldl chatStep (initialChatState selfUserId)).messages.map
        (fun m => m.mid)).Nodup) ∧
    (∀ (previous : List NormMessage) (message : RawMessage),
        previous.any (fun existing => existing.mid = message.mid) = true →
        appendRealtimeMessage previous message = previous) ∧
    (∀ (s : ChatState) (payload : RawMessage) (focused : Bool),
        payload.mid ∈ s.processedIds → onNewMessage s payload focused = s) := by
  refine ⟨foldl_messages_nodup events (initialChatState selfUserId)
    (by simp [initialChatState]) hsnap, ?_, ?_⟩
  · intro previous message hany
    unfold appendRealtimeMessage
    by_cases h1 : message.mid = ""
    · rw [if_pos h1]
    · rw [if_neg h1, if_pos hany]
  · intro s payload focused hmem
    unfold onNewMessage
    by_cases h1 : payload.mid = ""
    · rw [if_pos h1]
    · have h2 : s.processedIds.contains payload.mid = true := by simpa using hmem
      rw [if_neg h1, if_pos h2]

/-- Witness for `message_list_never_duplicates`: a trace that polls a
two-message snapshot and then receives the first message twice over push
ends with distinct ids; appending an existing id and re-delivering a
processed id are no-ops. -/
theorem message_list_never_duplicates_witness :
    ((([ChatEvent.fetchMerge [sampleRaw, sampleRaw2],
        ChatEvent.newMessage sampleRaw true,
        ChatEvent.newMessage sampleRaw true].foldl chatStep
          (initialChatState "u2")).messages.map (fun m => m.mid)).Nodup) ∧
      appendRealtimeMessage [normalizeIncomingMessage sampleRaw] sampleRaw =
        [normalizeIncomingMessage sampleRaw] ∧
      onNewMessage { initialChatState "u2" with processedIds := ["m1"] }
          sampleRaw true =
        { initialChatState "u2" with processedIds := ["m1"] } := by
  have h := message_list_never_duplicates "u2"
    [ChatEvent.fetchMerge [sampleRaw, sampleRaw2],
      ChatEvent.newMessage sampleRaw true,
      ChatEvent.newMessage sampleRaw true]
    (by
      intro snap hs
      simp only [List.mem_cons, List.not_mem_nil, or_false] at hs
      rcases hs with hs | hs | hs
      · injection hs with hs2
        rw [hs2]
        decide
      · cases hs
      · cases hs)
  exact ⟨h.1, h.2.1 _ _ (by decide), h.2.2 _ _ _ (by decide)⟩

theorem unreadIncrement_cons_ne (a : String × Nat) (t : List (String × Nat))
    (k : String) (ha : ¬a.1 = k) :
    unreadIncrement (a :: t) k = a :: unreadIncrement t k := by
  unfold unreadIncrement
  by_cases ht : t.any (fun p => p.1 = k) <;> simp [List.any_cons, ha, ht]

theorem unreadIncrement_get (u : List (String × Nat)) (k : String) :
    unreadGet (unreadIncrement u k) k = some ((unreadGet u k).getD 0 + 1) := by
  induction u with
  | nil => simp [unreadIncrement, unreadGet]
  | cons a t ih =>
    by_cases ha : a.1 = k
    · simp [unreadIncrement, unreadGet, List.any_cons, ha]
    · rw [unreadIncrement_cons_ne a t k ha]
      have h1 : unreadGet (a :: unreadIncrement t k) k =
          unreadGet (unreadIncrement t k) k := by
        unfold unreadGet
        rw [List.find?_cons_of_neg _ (by simpa using ha)]
      have h2 : unreadGet (a :: t) k = unreadGet t k := by
        unfold unreadGet
        rw [List.find?_cons_of_neg _ (by simpa using ha)]
      rw [h1, h2, ih]

theorem unreadIncrement_pos (u : List (String × Nat)) (k : String)
    (hpos : ∀ p ∈ u, p.2 ≠ 0) :
    ∀ p ∈ unreadIncrement u k, p.2 ≠ 0 := by
  intro p hp
  unfold unreadIncrement at hp
  by_cases hany : u.any (fun q => q.1 = k)
  · rw [if_pos hany] at hp
    obtain ⟨q, hq, hpq⟩ := List.mem_map.mp hp
    by_cases hqe : q.1 = k
    · rw [← hpq]
      simp [hqe]
    · rw [← hpq]
      simp only [hqe, if_false, ite_false]
      exact hpos q hq
  · rw [if_neg hany] at hp
    rcases List.mem_append.mp hp with h | h
    · exact hpos p h
    · simp only [List.mem_singleton] at h
      rw [h]
      simp

theorem unreadIncrement_keys (u : List (String × Nat)) (k : String) :
    ∀ p ∈ unreadIncrement u k, p.1 = k ∨ ∃ q ∈ u, p.1 = q.1 := by
  intro p hp
  unfold unreadIncrement at hp
  by_cases hany : u.any (fun q => q.1 = k)
  · rw [if_pos hany] at hp
    obtain ⟨q, hq, hpq⟩ := List.mem_map.mp hp
    by_cases hqe : q.1 = k
    · rw [← hpq]
      simp only [hqe, if_true, ite_true]
      exact Or.inl trivial
    · rw [← hpq]
      simp only [hqe, if_false, ite_false]
      exact Or.inr ⟨q, hq, rfl⟩
  · rw [if_neg hany] at hp
    rcases List.mem_append.mp hp with h | h
    · exact Or.inr ⟨p, h, rfl⟩
    · simp only [List.mem_singleton] at h
      rw [h]
      exact Or.inl rfl

theorem onNewMessage_unread_cases (s : ChatState) (payload : RawMessage)
    (focused : Bool) :
    (onNewMessage s payload focused).activeNotificationKey =
        s.activeNotificationKey ∧
      ((onNewMessage s payload focused).unreadCounts = s.unreadCounts ∨
        ∃ key, key ≠ "" ∧ key ≠ s.activeNotificationKey ∧
          (onNewMessage s payload focused).unreadCounts =
            unreadIncrement s.unreadCounts key) := by
  unfold onNewMessage
  by_cases h1 : payload.mid = ""
  · simp [h1]
  · by_cases h2 : s.processedIds.contains payload.mid
    · have hm : payload.mid ∈ s.processedIds := by simpa using h2
      simp [h1, h2, hm]
    · have hm2 : payload.mid ∉ s.processedIds := by simpa using h2
      by_cases h3 : getMessageNotificationKey payload.senderUserId
        payload.receiverUserIdOrRoomId s.selfUserId = ""
      · simp [h1, h2, hm2, h3]
      · by_cases h4 : getMessageNotificationKey payload.senderUserId
          payload.receiverUserIdOrRoomId s.selfUserId = s.activeNotificationKey
        · have h5 : ¬s.activeNotificationKey = "" := by
            rw [← h4]
            exact h3
          simp [h1, h2, hm2, h3, h4, h5]
        · refine ⟨by simp [h1, h2, hm2, h3, h4], Or.inr
            ⟨getMessageNotificationKey payload.senderUserId
              payload.receiverUserIdOrRoomId s.selfUserId, h3, h4,
              by simp [h1, h2, hm2, h3, h4]⟩⟩

theorem onConversationCleared_unread_mem (s : ChatState) (t : String) :
    (∀ p ∈ (onConversationCleared s t).unreadCounts, p ∈ s.unreadCounts) ∧
      (onConversationCleared s t).activeNotificationKey =
        s.activeNotificationKey := by
  by_cases h1 : t = ""
  · simp [onConversationCleared, h1]
  · by_cases h2 : s.activeNotificationKey = buildDmNotificationKey t ∨
      s.activeNotificationKey = buildRoomNotificationKey t
    · constructor
      · intro p hp
        have hp2 : p ∈ clearUnreadForKey
            (clearUnreadForKey s.unreadCounts (buildDmNotificationKey t))
            (buildRoomNotificationKey t) := by
          simpa [onConversationCleared, h1, h2] using hp
        exact clearUnreadForKey_subset p (clearUnreadForKey_subset p hp2)
      · simp [onConversationCleared, h1, h2]
    · constructor
      · intro p hp
        have hp2 : p ∈ clearUnreadForKey
            (clearUnreadForKey s.unreadCounts (buildDmNotificationKey t))
            (buildRoomNotificationKey t) := by
          simpa [onConversationCleared, h1, h2] using hp
        exact clearUnreadForKey_subset p (clearUnreadForKey_subset p hp2)
      · simp [onConversationCleared, h1, h2]

theorem removeRoomUnread_subset (u : List (String × Nat)) (roomId : String) :
    ∀ p ∈ removeRoomUnread u roomId, p ∈ u := by
  intro p hp
  unfold removeRoomUnread at hp
  by_cases h1 : roomId = ""
  · rw [if_pos h1] at hp
    exact hp
  · rw [if_neg h1] at hp
    exact clearUnreadForKey_subset p hp

theorem chatStep_unread_props (s : ChatState) (e : ChatEvent)
    (hpos : ∀ p ∈ s.unreadCounts, p.2 ≠ 0)
    (hkeys : ∀ p ∈ s.unreadCounts, p.1 ≠ "")
    (hact : ∀ p ∈ s.unreadCounts, p.1 ≠ s.activeNotificationKey) :
    (∀ p ∈ (chatStep s e).unreadCounts, p.2 ≠ 0) ∧
      (∀ p ∈ (chatStep s e).unreadCounts, p.1 ≠ "") ∧
      (∀ p ∈ (chatStep s e).unreadCounts,
        p.1 ≠ (chatStep s e).activeNotificationKey) := by
  cases e with
  | newMessage payload focused =>
    obtain ⟨hkey, hcase⟩ := onNewMessage_unread_cases s payload focused
    show (∀ p ∈ (onNewMessage s payload focused).unreadCounts, p.2 ≠ 0) ∧
      (∀ p ∈ (onNewMessage s payload focused).unreadCounts, p.1 ≠ "") ∧
      (∀ p ∈ (onNewMessage s payload focused).unreadCounts,
        p.1 ≠ (onNewMessage s payload focused).activeNotificationKey)
    rw [hkey]
    rcases hcase with heq | ⟨key, hk1, hk2, heq⟩
    · rw [heq]
      exact ⟨hpos, hkeys, hact⟩
    · rw [heq]
      refine ⟨unreadIncrement_pos s.unreadCounts key hpos, ?_, ?_⟩
      · intro p hp
        rcases unreadIncrement_keys s.unreadCounts key p hp with h | ⟨q, hq, h⟩
        · rw [h]
          exact hk1
        · rw [h]
          exact hkeys q hq
      · intro p hp
        rcases unreadIncrement_keys s.unreadCounts key p hp with h | ⟨q, hq, h⟩
        · rw [h]
          exact hk2
        · rw [h]
          exact hact q hq
  | reactionUpdated id rs => exact ⟨hpos, hkeys, hact⟩
  | messageDeleted id =>
    have hsame : (chatStep s (ChatEvent.messageDeleted id)).unreadCounts =
        s.unreadCounts ∧
        (chatStep s (ChatEvent.messageDeleted id)).activeNotificationKey =
          s.activeNotificationKey := by
      by_cases h1 : id = "" <;> simp [chatStep, h1]
    rw [hsame.1, hsame.2]
    exact ⟨hpos, hkeys, hact⟩
  | conversationCleared t =>
    obtain ⟨hsub, hkey⟩ := onConversationCleared_unread_mem s t
    refine ⟨fun p hp => hpos p (hsub p hp), fun p hp => hkeys p (hsub p hp), ?_⟩
    intro p hp
    show p.1 ≠ (onConversationCleared s t).activeNotificationKey
    rw [hkey]
    exact hact p (hsub p hp)
  | roomRemoved roomId =>
    exact ⟨fun p hp => hpos p (removeRoomUnread_subset s.unreadCounts roomId p hp),
      fun p hp => hkeys p (removeRoomUnread_subset s.unreadCounts roomId p hp),
      fun p hp => hact p (removeRoomUnread_subset s.unreadCounts roomId p hp)⟩
  | activateConversation key =>
    refine ⟨fun p hp => hpos p (clearUnreadForKey_subset p hp),
      fun p hp => hkeys p (clearUnreadForKey_subset p hp), ?_⟩
    intro p hp
    show p.1 ≠ key
    by_cases hk : key = ""
    · rw [hk]
      exact hkeys p (clearUnreadForKey_subset p hp)
    · exact clearUnreadForKey_no_entry hk hpos p hp
  | fetchMerge snapshot => exact ⟨hpos, hkeys, hact⟩
  | deselectAll =>
    refine ⟨hpos, hkeys, ?_⟩
    intro p hp
    show p.1 ≠ ""
    exact hkeys p hp

theorem foldl_unread_props (events : List ChatEvent) (s : ChatState)
    (hpos : ∀ p ∈ s.unreadCounts, p.2 ≠ 0)
    (hkeys : ∀ p ∈ s.unreadCounts, p.1 ≠ "")
    (hact : ∀ p ∈ s.unreadCounts, p.1 ≠ s.activeNotificationKey) :
    (∀ p ∈ (events.foldl chatStep s).unreadCounts, p.2 ≠ 0) ∧
      (∀ p ∈ (events.foldl chatStep s).unreadCounts, p.1 ≠ "") ∧
      (∀ p ∈ (events.foldl chatStep s).unreadCounts,
        p.1 ≠ (events.foldl chatStep s).activeNotificationKey) := by
  induction events generalizing s with
  | nil => exact ⟨hpos, hkeys, hact⟩
  | cons e es ih =>
    rw [List.foldl_cons]
    obtain ⟨h1, h2, h3⟩ := chatStep_unread_props s e hpos hkeys hact
    exact ih _ h1 h2 h3

/-- **C6**: in every reachable state the Unread Counter Map holds no entry
for the currently active conversation key; a push message that passes dedup
and is classified to a non-active key makes that key's entry strictly
increase by one (absent counting as zero); and activating a conversation
removes its entry from the map entirely. -/
theorem unread_counter_router_correct (selfUserId : String)
    (events : List ChatEvent) :
    (∀ p ∈ (events.foldl chatStep (initialChatState selfUserId)).unreadCounts,
        p.1 ≠ (events.foldl chatStep
          (initialChatState selfUserId)).activeNotificationKey) ∧
    (∀ (s : ChatState) (payload : RawMessage) (focused : Bool),
        payload.mid ≠ "" → payload.mid ∉ s.processedIds →
        getMessageNotificationKey payload.senderUserId
            payload.receiverUserIdOrRoomId s.selfUserId ≠ "" →
        getMessageNotificationKey payload.senderUserId
            payload.receiverUserIdOrRoomId s.selfUserId ≠
          s.activeNotificationKey →
        unreadGet (onNewMessage s payload focused).unreadCounts
            (getMessageNotificationKey payload.senderUserId
              payload.receiverUserIdOrRoomId s.selfUserId) =
          some ((unreadGet s.unreadCounts
            (getMessageNotificationKey payload.senderUserId
              payload.receiverUserIdOrRoomId s.selfUserId)).getD 0 + 1)) ∧
    (∀ (s : ChatState) (key : String), key ≠ "" →
        (∀ p ∈ s.unreadCounts, p.2 ≠ 0) →
        ∀ p ∈ (chatStep s (ChatEvent.activateConversation key)).unreadCounts,
          p.1 ≠ key) := by
  refine ⟨(foldl_unread_props events (initialChatState selfUserId)
      (by simp [initialChatState]) (by simp [initialChatState])
      (by simp [initialChatState])).2.2, ?_, ?_⟩
  · intro s payload focused h1 h2 h3 h4
    have hc : s.processedIds.contains payload.mid = false := by simpa using h2
    have hunread : (onNewMessage s payload focused).unreadCounts =
        unreadIncrement s.unreadCounts (getMessageNotificationKey
          payload.senderUserId payload.receiverUserIdOrRoomId s.selfUserId) := by
      unfold onNewMessage
      simp [h1, hc, h2, h3, h4]
    rw [hunread, unreadIncrement_get]
  · intro s key hk hpos p hp
    exact clearUnreadForKey_no_entry hk hpos p hp

/-- Witness for `unread_counter_router_correct`: a message for `dm:u1`
arriving while room `r9` is open creates unread count 1; activating
`room:r1` deletes its entry; no reachable state counts the open
conversation. -/
theorem unread_counter_router_witness :
    (∀ p ∈ ([ChatEvent.newMessage sampleRaw true].foldl chatStep
        (initialChatState "u2")).unreadCounts,
      p.1 ≠ ([ChatEvent.newMessage sampleRaw true].foldl chatStep
        (initialChatState "u2")).activeNotificationKey) ∧
    (sampleRaw.mid ≠ "" ∧ sampleRaw.mid ∉ sampleRoomActiveState.processedIds ∧
      getMessageNotificationKey sampleRaw.senderUserId
          sampleRaw.receiverUserIdOrRoomId sampleRoomActiveState.selfUserId =
        "dm:u1" ∧
      unreadGet (onNewMessage sampleRoomActiveState sampleRaw true).unreadCounts
          (getMessageNotificationKey sampleRaw.senderUserId
            sampleRaw.receiverUserIdOrRoomId sampleRoomActiveState.selfUserId) =
        some ((unreadGet sampleRoomActiveState.unreadCounts
          (getMessageNotificationKey sampleRaw.senderUserId
            sampleRaw.receiverUserIdOrRoomId
            sampleRoomActiveState.selfUserId)).getD 0 + 1)) ∧
    (∀ p ∈ (chatStep sampleClearedState
        (ChatEvent.activateConversation "room:r1")).unreadCounts,
      p.1 ≠ "room:r1") := by
  have h := unread_counter_router_correct "u2"
    [ChatEvent.newMessage sampleRaw true]
  refine ⟨h.1, ⟨by decide, by decide, by decide, ?_⟩, ?_⟩
  · exact h.2.1 sampleRoomActiveState sampleRaw true (by decide) (by decide)
      (by decide) (by decide)
  · exact h.2.2 sampleClearedState "room:r1" (by decide) (by decide)

end ChatApp
